import Mathlib

/-!
Verification development for the aidev agentic development orchestrator.

The definitions below are a shallow embedding of the tool-execution sandbox
(`src/aidev/tools.py`), the configuration defaults (`src/aidev/config.py`),
and the iterative tool-call loop (`src/aidev/providers.py`).

Modelling conventions:
- an absolute filesystem path is a list of segment names (`AbsPath`);
- the filesystem is an association list from absolute paths to file data,
  where file data carries both the decoded text content and the stat size
  in bytes (`st_size`);
- Python exceptions raised and caught inside a tool are modelled with
  `Except`; each top-level tool operation is a total Lean function, which
  mirrors the fact that the Python operations catch exceptions internally;
- subprocess execution (`subprocess.run`) is modelled by an oracle function
  supplied as a parameter, returning the observed completion or a timeout.
-/

namespace AIDev

instance {α β : Type} [DecidableEq α] [DecidableEq β] :
    DecidableEq (Except α β) := fun x y =>
  match x, y with
  | Except.ok a, Except.ok b =>
    if h : a = b then Decidable.isTrue (h ▸ rfl)
    else Decidable.isFalse (fun hh => h (Except.ok.inj hh))
  | Except.error a, Except.error b =>
    if h : a = b then Decidable.isTrue (h ▸ rfl)
    else Decidable.isFalse (fun hh => h (Except.error.inj hh))
  | Except.ok _, Except.error _ => Decidable.isFalse (fun hh => Except.noConfusion hh)
  | Except.error _, Except.ok _ => Decidable.isFalse (fun hh => Except.noConfusion hh)

/-- Python `s.startswith(pre)`: the character sequence of `pre` is a leading
subsequence of the character sequence of `s`. -/
def strStartsWith (s pre : String) : Bool :=
  pre.data.isPrefixOf s.data

/-- Split a character list at every occurrence of the separator, as Python
`str.split(sep)` with a one-character separator does. -/
def splitOnChar (c : Char) : List Char → List (List Char)
  | [] => [[]]
  | x :: xs =>
    let r := splitOnChar c xs
    if x = c then [] :: r
    else
      match r with
      | [] => [[x]]
      | h :: t => (x :: h) :: t

/-- Python `s.split(c)` for a one-character separator. -/
def strSplitOn (s : String) (c : Char) : List String :=
  (splitOnChar c s.data).map String.mk

/-- The default whitespace characters Python `str.strip()` removes
(restricted to ASCII). -/
def isPySpace (c : Char) : Bool :=
  c = ' ' || c = '\t' || c = '\n' || c = '\r' || c = '\x0b' || c = '\x0c'

/-- Python `s.strip()`: remove leading and trailing whitespace. -/
def pyStrip (s : String) : String :=
  String.mk (((s.data.dropWhile isPySpace).reverse.dropWhile isPySpace).reverse)

/-- Python `sep.join(parts)`. -/
def joinWith (sep : String) : List String → String
  | [] => ""
  | [x] => x
  | x :: xs => x ++ sep ++ joinWith sep xs

/-- A canonical absolute path, as its list of segments (no empty, dot or
dot-dot segments). `[]` is the filesystem root. -/
abbrev AbsPath := List String

/-- Render a nonempty segment list the way `str(pathlib.Path)` does:
each segment preceded by a slash. -/
def renderSegs : List String → String
  | [] => ""
  | s :: rest => "/" ++ s ++ renderSegs rest

/-- Python `str(Path(...))` for an absolute path: `/` for the root,
otherwise the slash-separated segments. -/
def renderPath (p : AbsPath) : String :=
  if p = [] then "/" else renderSegs p

/-- Lexical resolution of raw path segments against an already canonical
base, as `Path.resolve()` does in the absence of symlinks: dot-dot pops one
segment (the root is its own parent), empty and dot segments are skipped. -/
def resolveSegs : AbsPath → List String → AbsPath
  | acc, [] => acc
  | acc, s :: rest =>
    if s = "" || s = "." then resolveSegs acc rest
    else if s = ".." then resolveSegs acc.dropLast rest
    else resolveSegs (acc ++ [s]) rest

/-- Python `(base / p).resolve()`: an absolute `p` replaces the base,
otherwise `p` is joined onto the base; then the result is canonicalized. -/
def joinPath (base : AbsPath) (p : String) : AbsPath :=
  let segs := (strSplitOn p '/').filter (fun s => s ≠ "")
  if strStartsWith p "/" then resolveSegs [] segs
  else resolveSegs base segs

/-- `ToolExecutor._jail_path` from `src/aidev/tools.py`: resolve the
requested path against the repository root, then require
`str(target).startswith(str(base))`; on failure raise `ValueError`
(modelled as `Except.error` with the exception message). -/
def jail_path (base : AbsPath) (p : String) : Except String AbsPath :=
  let target := joinPath base p
  if strStartsWith (renderPath target) (renderPath base) then Except.ok target
  else Except.error ("Path \x27" ++ p ++ "\x27 escapes repository jail")

/-- The string form of `target.relative_to(base)` when it succeeds. -/
def relStr (base target : AbsPath) : String :=
  let rest := target.drop base.length
  if rest = [] then "." else joinWith "/" rest

/-- Python `target.relative_to(base)`: succeeds exactly when `target` is
equal to or a descendant of `base`; otherwise raises `ValueError`. -/
def relative_to (base target : AbsPath) : Except String String :=
  if base.isPrefixOf target then Except.ok (relStr base target)
  else
    Except.error ("\x27" ++ renderPath target ++
      "\x27 is not in the subpath of \x27" ++ renderPath base ++ "\x27")

/-- Contents and stat metadata of one regular file. `size` models
`stat().st_size` in bytes. -/
structure FileData where
  content : String
  size : Nat
deriving DecidableEq, Repr

/-- The filesystem: an association list from absolute paths to file data.
Earlier entries shadow later ones. -/
abbrev FS := List (AbsPath × FileData)

def fsLookup : FS → AbsPath → Option FileData
  | [], _ => none
  | (q, d) :: rest, p => if q = p then some d else fsLookup rest p

def fsInsert (fs : FS) (p : AbsPath) (d : FileData) : FS :=
  (p, d) :: fs

/-- `file_path.with_suffix(file_path.suffix + ".bak")` appends `.bak` to the
final segment (the stem plus the original suffix is the whole name). -/
def backupPath : AbsPath → AbsPath
  | [] => []
  | [s] => [s ++ ".bak"]
  | s :: rest => s :: backupPath rest

/-- The uniform result envelope returned by every tool operation: the Python
dictionaries are modelled as one record with optional fields, `none` meaning
the key is absent from the dictionary. -/
structure ToolResult where
  ok : Bool
  error : Option String := none
  path : Option String := none
  content : Option String := none
  size : Option Nat := none
  backup : Option String := none
  returncode : Option Int := none
  stdout : Option String := none
  stderr : Option String := none
  allowedPrefixes : Option (List String) := none
  diff : Option String := none
  additions : Option Nat := none
  deletions : Option Nat := none
  staged : Option Bool := none
  message : Option String := none
  files : Option (List (String × Nat × Int)) := none
deriving DecidableEq, Repr

/-- `ToolExecutor.read_file`: jail the path, fail when absent, fail without
reading when `st_size` exceeds 1,000,000 bytes, otherwise return the decoded
content, its character length, and the repo-relative path. A caught
exception (from the jail or from `relative_to`) becomes `{ok := false}`
with the exception message. -/
def read_file (fs : FS) (base : AbsPath) (p : String) : ToolResult :=
  match jail_path base p with
  | Except.error e => { ok := false, error := some e }
  | Except.ok target =>
    match fsLookup fs target with
    | none => { ok := false, error := some "File not found" }
    | some d =>
      if 1000000 < d.size then { ok := false, error := some "File too large (>1MB)" }
      else
        match relative_to base target with
        | Except.error e => { ok := false, error := some e }
        | Except.ok rel =>
          { ok := true, path := some rel, content := some d.content,
            size := some d.content.length }

/-- `ToolExecutor.write_file`: jail the path; when a file already exists at
the target, first copy it (content and metadata, as `shutil.copy2`) to the
sibling backup path; then write the new content; finally report the
repo-relative target path, the UTF-8 byte length written, and the backup
path when one was made. The repo-relative rendering happens after the
writes, so a caught `relative_to` exception still leaves the writes in
place. -/
def write_file (fs : FS) (base : AbsPath) (p content : String) :
    ToolResult × FS :=
  match jail_path base p with
  | Except.error e => ({ ok := false, error := some e }, fs)
  | Except.ok target =>
    let backed : Option (AbsPath × FileData) :=
      match fsLookup fs target with
      | some old => some (backupPath target, old)
      | none => none
    let fs₁ : FS :=
      match backed with
      | some (b, old) => fsInsert fs b old
      | none => fs
    let fs₂ := fsInsert fs₁ target ⟨content, content.utf8ByteSize⟩
    match relative_to base target with
    | Except.error e => ({ ok := false, error := some e }, fs₂)
    | Except.ok rel =>
      match backed with
      | some (b, _) =>
        match relative_to base b with
        | Except.error e => ({ ok := false, error := some e }, fs₂)
        | Except.ok relB =>
          ({ ok := true, path := some rel,
             size := some content.utf8ByteSize, backup := some relB }, fs₂)
      | none =>
        ({ ok := true, path := some rel,
           size := some content.utf8ByteSize }, fs₂)

/-- `ToolConfig` defaults from `src/aidev/config.py`: the baseline allowed
command list, the default subprocess timeout and its cap, in seconds. -/
structure ToolConfig where
  allowed_commands : List String
  default_timeout : Int
  max_timeout : Int
deriving DecidableEq, Repr

/-- The default `ToolConfig` values from `src/aidev/config.py`. -/
def defaultToolConfig : ToolConfig :=
  { allowed_commands :=
      ["pytest", "python -m pytest", "pip install", "npm install", "npm test",
       "ruff", "black", "mypy", "cargo test", "cargo build", "go test", "go build"],
    default_timeout := 90,
    max_timeout := 300 }

/-- `AIDevConfig.max_iterations` default from `src/aidev/config.py`. -/
def defaultMaxIterations : Nat := 50

/-- `ToolExecutor._is_command_allowed` applied to an already stripped
command (the source strips its argument; `bash` passes the stripped command,
and stripping is idempotent): some allowed entry is a leading substring. -/
def is_command_allowed (allowed : List String) (command : String) : Bool :=
  allowed.any (fun a => strStartsWith command a)

/-- Observable outcome of one `subprocess.run` invocation. -/
inductive SubResult where
  | completed (returncode : Int) (stdout stderr : String)
  | timedOut
deriving DecidableEq, Repr

/-- Python `s[-n:]`: the last `n` characters (the whole string when
shorter). -/
def takeRightStr (s : String) (n : Nat) : String :=
  String.mk (s.data.drop (s.data.length - n))

/-- The effective timeout `bash` hands to `subprocess.run`:
`timeout = timeout or default_timeout` (absent and zero requests are falsy
and fall back to the default) followed by `timeout = min(timeout,
max_timeout)`. There is no clamping from below. -/
def effectiveTimeout (cfg : ToolConfig) (t? : Option Int) : Int :=
  let t : Int :=
    match t? with
    | none => cfg.default_timeout
    | some t => if t = 0 then cfg.default_timeout else t
  min t cfg.max_timeout

/-- `ToolExecutor.bash`: strip the command; reject it with the allowed
prefix list unless some allowed entry is a leading substring; otherwise run
it via the subprocess oracle with the effective timeout, reporting
`ok := returncode == 0` with the outputs truncated to their last 8000
characters, or the timeout error. The second component records the spawned
subprocess invocation (command and timeout), `none` when no subprocess was
spawned. -/
def bash (cfg : ToolConfig) (allowed : List String)
    (runSub : String → Int → SubResult) (command : String) (t? : Option Int) :
    ToolResult × Option (String × Int) :=
  let c := pyStrip command
  if ¬ is_command_allowed allowed c then
    ({ ok := false, error := some ("Command not allowed: " ++ c),
       allowedPrefixes := some allowed }, none)
  else
    let t := effectiveTimeout cfg t?
    match runSub c t with
    | SubResult.completed rc out err =>
      ({ ok := rc == 0, returncode := some rc,
         stdout := some (takeRightStr out 8000),
         stderr := some (takeRightStr err 8000) }, some (c, t))
    | SubResult.timedOut =>
      ({ ok := false,
         error := some ("Command timed out after " ++ toString t ++ "s") },
       some (c, t))

/-- Observed completion of a git subprocess. -/
structure ProcResult where
  returncode : Int
  stdout : String
  stderr : String
deriving DecidableEq, Repr

/-- A diff line counts as an addition when it begins with `+` but not with
the `+++` file header marker. -/
def isAdditionLine (l : String) : Bool :=
  strStartsWith l "+" && !(strStartsWith l "+++")

/-- A diff line counts as a deletion when it begins with `-` but not with
the `---` file header marker. -/
def isDeletionLine (l : String) : Bool :=
  strStartsWith l "-" && !(strStartsWith l "---")

/-- `ToolExecutor.git_diff`: run `git diff` (or `git diff --cached`) via the
oracle; on a non-zero exit return the stderr as the error; otherwise return
the diff text and the addition/deletion counts over its newline-split
lines. -/
def git_diff (proc : Bool → ProcResult) (staged : Bool) : ToolResult :=
  let p := proc staged
  if p.returncode ≠ 0 then { ok := false, error := some p.stderr }
  else
    let lines := strSplitOn p.stdout '\n'
    { ok := true, diff := some p.stdout,
      additions := some (lines.countP isAdditionLine),
      deletions := some (lines.countP isDeletionLine),
      staged := some staged }

/-- `ToolExecutor.git_apply`: feed the patch to `git apply` via the oracle;
non-zero exit returns the stderr as the error, success returns a
confirmation message. -/
def git_apply (applyProc : String → Bool → ProcResult) (patch : String)
    (staged : Bool) : ToolResult :=
  let p := applyProc patch staged
  if p.returncode ≠ 0 then { ok := false, error := some p.stderr }
  else
    { ok := true,
      message := some ("Patch applied successfully" ++
        (if staged then " (staged)" else "")) }

/-- One entry produced by the glob oracle: its repo-relative rendering,
whether it is a regular file, and its stat size and mtime. -/
structure FileEntry where
  relPath : String
  isFile : Bool
  size : Nat
  mtime : Int
deriving DecidableEq, Repr

/-- `ToolExecutor.list_files`: expand the glob via the oracle (a raised
exception becomes the error result), truncate to `max_files` entries before
filtering to regular files, and report path, size and mtime per entry. -/
def list_files (glob : String → Except String (List FileEntry))
    (pattern : String) (max_files : Nat) : ToolResult :=
  match glob pattern with
  | Except.error e => { ok := false, error := some e }
  | Except.ok entries =>
    let files := (entries.take max_files).filter (fun f => f.isFile)
    { ok := true,
      files := some (files.map (fun f => (f.relPath, f.size, f.mtime))) }

/-- The argument mapping of one tool-use request; `none` models an absent
key. -/
structure ToolInput where
  path : Option String := none
  content : Option String := none
  command : Option String := none
  timeout : Option Int := none
  patch : Option String := none
  staged : Option Bool := none
  pattern : Option String := none
  max_files : Option Nat := none
deriving DecidableEq, Repr, Inhabited

/-- The ambient executor state and oracles `_execute_tool` dispatches
into. -/
structure ExecEnv where
  base : AbsPath
  cfg : ToolConfig
  allowed : List String
  runSub : String → Int → SubResult
  gitProc : Bool → ProcResult
  applyProc : String → Bool → ProcResult
  glob : String → Except String (List FileEntry)

/-- A missing required argument raises `KeyError(name)`, whose string form
is the quoted name; the dispatcher catches it and reports it as the
error. -/
def keyErrorMsg (k : String) : String := "\x27" ++ k ++ "\x27"

/-- `AnthropicProvider._execute_tool` from `src/aidev/providers.py`:
dispatch a tool-use request by name to the executor, defaulting the
optional arguments as the source does; an unknown name yields
`{ok := false, error := "Unknown tool: ..."}` and touches nothing. The
returned filesystem is the post-call filesystem. -/
def execute_tool (env : ExecEnv) (fs : FS) (name : String)
    (input : ToolInput) : ToolResult × FS :=
  if name = "read_file" then
    match input.path with
    | some p => (read_file fs env.base p, fs)
    | none => ({ ok := false, error := some (keyErrorMsg "path") }, fs)
  else if name = "write_file" then
    match input.path, input.content with
    | some p, some c => write_file fs env.base p c
    | none, _ => ({ ok := false, error := some (keyErrorMsg "path") }, fs)
    | _, none => ({ ok := false, error := some (keyErrorMsg "content") }, fs)
  else if name = "bash" then
    match input.command with
    | some c => ((bash env.cfg env.allowed env.runSub c input.timeout).1, fs)
    | none => ({ ok := false, error := some (keyErrorMsg "command") }, fs)
  else if name = "git_diff" then
    (git_diff env.gitProc (input.staged.getD false), fs)
  else if name = "git_apply" then
    match input.patch with
    | some pt => (git_apply env.applyProc pt (input.staged.getD true), fs)
    | none => ({ ok := false, error := some (keyErrorMsg "patch") }, fs)
  else if name = "list_files" then
    (list_files env.glob (input.pattern.getD "*") (input.max_files.getD 100), fs)
  else
    ({ ok := false, error := some ("Unknown tool: " ++ name) }, fs)

/-- One block of an assistant response: plain text or a tool-use request
with its correlation identifier, tool name and arguments. -/
inductive ContentBlock where
  | text (s : String)
  | toolUse (id : String) (name : String) (input : ToolInput)
deriving DecidableEq, Repr

/-- The content of one conversation turn: plain text, the assistant blocks
appended verbatim, or a batch of tool results keyed by correlation
identifier. -/
inductive MessageContent where
  | text (s : String)
  | blocks (bs : List ContentBlock)
  | toolResults (rs : List (String × ToolResult))
deriving DecidableEq, Repr

/-- One conversation turn. -/
structure Message where
  role : String
  content : MessageContent
deriving DecidableEq, Repr

/-- Whether an assistant response contains at least one tool-use request. -/
def hasToolUse (content : List ContentBlock) : Bool :=
  content.any (fun b =>
    match b with
    | ContentBlock.toolUse _ _ _ => true
    | _ => false)

/-- The plain-text blocks of a response, in order. -/
def textParts (content : List ContentBlock) : List String :=
  content.filterMap (fun b =>
    match b with
    | ContentBlock.text s => some s
    | _ => none)

/-- Execute every tool-use block of a response in order, pairing each
result with the correlation identifier of its request. -/
def toolResultsOf (exec : String → ToolInput → ToolResult)
    (content : List ContentBlock) : List (String × ToolResult) :=
  content.filterMap (fun b =>
    match b with
    | ContentBlock.toolUse id name input => some (id, exec name input)
    | _ => none)

/-- The conversation after one tool-using response: the assistant blocks
appended verbatim, then one user turn batching all tool results. -/
def nextMessages (exec : String → ToolInput → ToolResult)
    (msgs : List Message) (content : List ContentBlock) : List Message :=
  msgs ++ [⟨"assistant", MessageContent.blocks content⟩,
           ⟨"user", MessageContent.toolResults (toolResultsOf exec content)⟩]

/-- The dictionary returned by `implement_spec`, with `none` modelling an
absent key. -/
structure ImplementResult where
  ok : Bool
  iterations : Nat
  response : Option String := none
  error : Option String := none
deriving DecidableEq, Repr

/-- The iteration-cap failure result of `implement_spec`. -/
def capResult (maxIter : Nat) : ImplementResult :=
  { ok := false, iterations := maxIter,
    error := some ("Maximum iterations (" ++ toString maxIter ++ ") reached") }

/-- The `for iteration in range(max_iterations)` loop of
`AnthropicProvider.implement_spec`, with `fuel` iterations remaining. Each
iteration makes one model call (a raised provider exception is
`Except.error`): on an exception the loop continues with the conversation
unchanged, except on the last iteration, which returns the error; on a
response with tool-use blocks it executes them all and continues with the
extended conversation; on a response without tool use it returns success
with the joined text. When the range is exhausted it returns the cap
failure. The second component counts the model calls made. -/
def implementLoop (model : List Message → Except String (List ContentBlock))
    (exec : String → ToolInput → ToolResult) (maxIter : Nat) :
    Nat → List Message → Nat → ImplementResult × Nat
  | 0, _, calls => (capResult maxIter, calls)
  | fuel + 1, msgs, calls =>
    match model msgs with
    | Except.error e =>
      if fuel = 0 then
        ({ ok := false, iterations := maxIter, error := some e }, calls + 1)
      else implementLoop model exec maxIter fuel msgs (calls + 1)
    | Except.ok content =>
      if hasToolUse content then
        implementLoop model exec maxIter fuel
          (nextMessages exec msgs content) (calls + 1)
      else
        ({ ok := true, iterations := maxIter - fuel,
           response := some (joinWith "\n" (textParts content)) },
         calls + 1)

/-- `AnthropicProvider.implement_spec`: run the bounded tool-call loop from
the seeded conversation, returning the result dictionary and the number of
model calls made. -/
def implement_spec (model : List Message → Except String (List ContentBlock))
    (exec : String → ToolInput → ToolResult) (maxIter : Nat)
    (msgs₀ : List Message) : ImplementResult × Nat :=
  implementLoop model exec maxIter maxIter msgs₀ 0

/-- The example diff text of the testable-properties section: three added
lines, one removed line, one context line, and the two file-header lines. -/
def exampleDiff : String :=
  "diff --git a/f b/f\n--- a/f\n+++ b/f\n@@ -1,2 +1,4 @@\n context\n-old line\n+one\n+two\n+three\n"

/-! Helper lemmas. -/

theorem isPrefixOf_eq_append {α : Type} [BEq α] [LawfulBEq α] :
    ∀ (a b : List α), (a.isPrefixOf b) = true ↔ ∃ t, a ++ t = b := by
  intro a
  induction a with
  | nil =>
    intro b
    simp [List.isPrefixOf]
  | cons x xs ih =>
    intro b
    cases b with
    | nil => simp [List.isPrefixOf]
    | cons y ys =>
      simp only [List.isPrefixOf, List.cons_append, Bool.and_eq_true, beq_iff_eq, ih ys]
      constructor
      · rintro ⟨hxy, t, ht⟩
        exact ⟨t, by rw [hxy, ht]⟩
      · rintro ⟨t, ht⟩
        injection ht with h1 h2
        exact ⟨h1, t, h2⟩

theorem isPrefixOf_append_self {α : Type} [BEq α] [LawfulBEq α]
    (a t : List α) : (a.isPrefixOf (a ++ t)) = true :=
  (isPrefixOf_eq_append a (a ++ t)).mpr ⟨t, rfl⟩

theorem data_renderSegs_append (a b : List String) :
    (renderSegs (a ++ b)).data = (renderSegs a).data ++ (renderSegs b).data := by
  induction a with
  | nil => simp [renderSegs]
  | cons x xs ih =>
    simp [renderSegs, String.data_append, ih, List.append_assoc]

theorem startswith_renderPath_append (base rest : AbsPath) :
    strStartsWith (renderPath (base ++ rest)) (renderPath base) = true := by
  unfold strStartsWith
  rw [isPrefixOf_eq_append]
  cases base with
  | nil =>
    cases rest with
    | nil => exact ⟨[], rfl⟩
    | cons r rs =>
      refine ⟨(r ++ renderSegs rs).data, ?_⟩
      simp [renderPath, renderSegs, String.data_append, List.append_assoc]
  | cons x xs =>
    refine ⟨(renderSegs rest).data, ?_⟩
    have hne : x :: xs ++ rest ≠ [] := by simp
    simp only [renderPath, if_neg (by simp : ¬(x :: xs = [])), if_neg hne]
    exact (data_renderSegs_append (x :: xs) rest).symm

theorem jail_path_ok_of_append (base : AbsPath) (p : String)
    (rest : List String) (h : joinPath base p = base ++ rest) :
    jail_path base p = Except.ok (base ++ rest) := by
  unfold jail_path
  rw [h]
  simp [startswith_renderPath_append]

theorem backupPath_append (base : AbsPath) (r : String) (rs : List String) :
    backupPath (base ++ r :: rs) = base ++ backupPath (r :: rs) := by
  induction base with
  | nil => rfl
  | cons b bs ih =>
    cases bs with
    | nil => rfl
    | cons c cs =>
      simp only [List.cons_append] at ih ⊢
      rw [show backupPath (b :: c :: (cs ++ r :: rs)) =
            b :: backupPath (c :: (cs ++ r :: rs)) from rfl, ih]

theorem backupPath_ne (t : AbsPath) (h : t ≠ []) : backupPath t ≠ t := by
  induction t with
  | nil => exact absurd rfl h
  | cons s rest ih =>
    cases rest with
    | nil =>
      intro hc
      have hs : s ++ ".bak" = s := by
        have := List.head_eq_of_cons_eq hc
        exact this
      have hd := congrArg String.data hs
      rw [String.data_append] at hd
      have hl := congrArg List.length hd
      simp at hl
    | cons y ys =>
      intro hc
      have htail : backupPath (y :: ys) = y :: ys := List.tail_eq_of_cons_eq hc
      exact ih (by simp) htail

/-! Claim theorems. -/

/-- Claim C1, counterexample: the jail accepts the path `../repo2/secret`
relative to the root `/repo`, although its canonicalized target
`/repo2/secret` is not equal to or a descendant of the root (the check is a
string-prefix comparison of the renderings), and `write_file` then performs
the write at that outside target. -/
theorem path_confinement_counterexample :
    jail_path ["repo"] "../repo2/secret" = Except.ok ["repo2", "secret"] ∧
    (["repo"] : List String).isPrefixOf ["repo2", "secret"] = false ∧
    (write_file [] ["repo"] "../repo2/secret" "x").2 =
      [(["repo2", "secret"], ⟨"x", 1⟩)] := by
  decide

/-- Claim C1, amended: path resolution succeeds exactly when the rendering
of the canonicalized target extends the rendering of the repository root as
a string; whenever it fails, `read_file` and `write_file` return that
`PathEscape` error and perform no I/O; and every equal-or-descendant target
is accepted. (A non-descendant sibling whose rendering extends the root
rendering, such as `/repo2/secret` under `/repo`, is accepted instead of
rejected.) -/
theorem jail_path_string_prefix_confinement (base : AbsPath) (p : String)
    (fs : FS) (content : String) :
    ((∃ t, jail_path base p = Except.ok t) ↔
      strStartsWith (renderPath (joinPath base p)) (renderPath base) = true) ∧
    (∀ e, jail_path base p = Except.error e →
      read_file fs base p = { ok := false, error := some e } ∧
      write_file fs base p content = ({ ok := false, error := some e }, fs)) ∧
    (∀ rest, joinPath base p = base ++ rest →
      jail_path base p = Except.ok (base ++ rest)) := by
  refine ⟨?_, ?_, fun rest h => jail_path_ok_of_append base p rest h⟩
  · unfold jail_path
    by_cases h : strStartsWith (renderPath (joinPath base p)) (renderPath base) = true
    · simp [h]
    · simp [h]
  · intro e he
    constructor
    · unfold read_file
      rw [he]
    · unfold write_file
      rw [he]

/-- Claim C1, witness: the absolute-path injection `/etc/passwd` under the
root `/repo` is rejected with the `PathEscape` error by the jail, by
`read_file` and by `write_file` with the filesystem untouched, while the
ordinary relative path `docs/readme.md` is accepted. -/
theorem jail_path_string_prefix_confinement_witness :
    jail_path ["repo"] "/etc/passwd" =
      Except.error "Path \x27/etc/passwd\x27 escapes repository jail" ∧
    read_file [] ["repo"] "/etc/passwd" =
      { ok := false,
        error := some "Path \x27/etc/passwd\x27 escapes repository jail" } ∧
    write_file [] ["repo"] "/etc/passwd" "x" =
      ({ ok := false,
         error := some "Path \x27/etc/passwd\x27 escapes repository jail" }, []) ∧
    jail_path ["repo"] "docs/readme.md" =
      Except.ok ["repo", "docs", "readme.md"] := by
  have he : jail_path ["repo"] "/etc/passwd" =
      Except.error "Path \x27/etc/passwd\x27 escapes repository jail" := by decide
  have h := (jail_path_string_prefix_confinement ["repo"] "/etc/passwd" [] "x").2.1
    "Path \x27/etc/passwd\x27 escapes repository jail" he
  have h2 := (jail_path_string_prefix_confinement ["repo"] "docs/readme.md" [] "x").2.2
    ["docs", "readme.md"] (by decide)
  exact ⟨he, h.1, h.2, h2⟩

/-- Claim C5: when the (in-repository) target of a `write_file` call
already contains a file, the pre-write file data is first copied to the
sibling backup path; afterwards the backup holds exactly the pre-write
data, the target holds exactly the new content, and the result reports the
repo-relative path and the UTF-8 byte length written, along with the
backup path. -/
theorem write_file_backup_on_overwrite (fs : FS) (base : AbsPath)
    (p content : String) (old : FileData)
    (hdesc : base.isPrefixOf (joinPath base p) = true)
    (hne : joinPath base p ≠ base)
    (hold : fsLookup fs (joinPath base p) = some old) :
    (write_file fs base p content).1 =
      { ok := true, path := some (relStr base (joinPath base p)),
        size := some content.utf8ByteSize,
        backup := some (relStr base (backupPath (joinPath base p))) } ∧
    fsLookup (write_file fs base p content).2
      (backupPath (joinPath base p)) = some old ∧
    fsLookup (write_file fs base p content).2 (joinPath base p) =
      some ⟨content, content.utf8ByteSize⟩ := by
  obtain ⟨rest, hrest⟩ := (isPrefixOf_eq_append base (joinPath base p)).mp hdesc
  cases rest with
  | nil => exact absurd ((by simpa using hrest.symm) : joinPath base p = base) hne
  | cons r rs =>
    have ht : joinPath base p = base ++ r :: rs := hrest.symm
    have hjail := jail_path_ok_of_append base p (r :: rs) ht
    have hold' : fsLookup fs (base ++ r :: rs) = some old := ht ▸ hold
    have hb : backupPath (base ++ r :: rs) = base ++ backupPath (r :: rs) :=
      backupPath_append base r rs
    have hrel1 : relative_to base (base ++ r :: rs) =
        Except.ok (relStr base (base ++ r :: rs)) := by
      unfold relative_to
      rw [isPrefixOf_append_self]
      simp
    have hrel2 : relative_to base (backupPath (base ++ r :: rs)) =
        Except.ok (relStr base (backupPath (base ++ r :: rs))) := by
      unfold relative_to
      rw [hb, isPrefixOf_append_self, ← hb]
      simp
    have hne2 : ¬ ((base ++ r :: rs) = backupPath (base ++ r :: rs)) :=
      fun hh => backupPath_ne (base ++ r :: rs) (by simp) hh.symm
    rw [ht]
    unfold write_file
    rw [hjail]
    simp only [hold', hrel1, hrel2]
    refine ⟨trivial, ?_, ?_⟩
    · simp [fsLookup, fsInsert, hne2]
    · simp [fsLookup, fsInsert]

/-- Claim C5, witness: overwriting `a/b.txt` (pre-write data `old`, 3
bytes) with the 4-byte content `newc` puts the pre-write data at
`a/b.txt.bak`, the new content at the target, and reports the relative
path and the byte count. -/
theorem write_file_backup_on_overwrite_witness :
    fsLookup [(["repo", "a", "b.txt"], ⟨"old", 3⟩)] ["repo", "a", "b.txt"] =
      some ⟨"old", 3⟩ ∧
    (write_file [(["repo", "a", "b.txt"], ⟨"old", 3⟩)] ["repo"] "a/b.txt" "newc").1 =
      { ok := true, path := some "a/b.txt", size := some 4,
        backup := some "a/b.txt.bak" } ∧
    fsLookup
      (write_file [(["repo", "a", "b.txt"], ⟨"old", 3⟩)] ["repo"] "a/b.txt" "newc").2
      ["repo", "a", "b.txt.bak"] = some ⟨"old", 3⟩ ∧
    fsLookup
      (write_file [(["repo", "a", "b.txt"], ⟨"old", 3⟩)] ["repo"] "a/b.txt" "newc").2
      ["repo", "a", "b.txt"] = some ⟨"newc", 4⟩ := by
  have h := write_file_backup_on_overwrite
    [(["repo", "a", "b.txt"], ⟨"old", 3⟩)] ["repo"] "a/b.txt" "newc" ⟨"old", 3⟩
    (by decide) (by decide) (by decide)
  refine ⟨by decide, h.1.trans (by decide), ?_, ?_⟩
  · have := h.2.1
    rwa [show backupPath (joinPath ["repo"] "a/b.txt") =
      ["repo", "a", "b.txt.bak"] from by decide] at this
  · have := h.2.2
    rwa [show joinPath ["repo"] "a/b.txt" = ["repo", "a", "b.txt"] from by decide,
      show ("newc" : String).utf8ByteSize = 4 from by decide] at this

/-- Claim C6: for an in-repository target, `read_file` fails with the
`NotFound` error when the file is absent; succeeds on a file whose stat
size is exactly the 1,000,000-byte cap, returning the full decoded content
and the repo-relative path; and fails with the `TooLarge` error, returning
no content, when the stat size exceeds the cap. -/
theorem read_file_size_cap (fs : FS) (base : AbsPath) (p : String)
    (hdesc : base.isPrefixOf (joinPath base p) = true) :
    (fsLookup fs (joinPath base p) = none →
      read_file fs base p = { ok := false, error := some "File not found" }) ∧
    (∀ d, fsLookup fs (joinPath base p) = some d → d.size = 1000000 →
      read_file fs base p =
        { ok := true, path := some (relStr base (joinPath base p)),
          content := some d.content, size := some d.content.length }) ∧
    (∀ d, fsLookup fs (joinPath base p) = some d → 1000000 < d.size →
      read_file fs base p =
        { ok := false, error := some "File too large (>1MB)" }) := by
  obtain ⟨rest, hrest⟩ := (isPrefixOf_eq_append base (joinPath base p)).mp hdesc
  have ht : joinPath base p = base ++ rest := hrest.symm
  have hjail := jail_path_ok_of_append base p rest ht
  have hrel1 : relative_to base (base ++ rest) =
      Except.ok (relStr base (base ++ rest)) := by
    unfold relative_to
    rw [isPrefixOf_append_self]
    simp
  rw [ht]
  refine ⟨?_, ?_, ?_⟩
  · intro habs
    unfold read_file
    rw [hjail]
    simp only [habs]
  · intro d hd hsize
    unfold read_file
    rw [hjail]
    simp only [hd, hsize, hrel1]
    norm_num
  · intro d hd hsize
    unfold read_file
    rw [hjail]
    simp only [hd, hrel1, if_pos hsize]

/-- Claim C6, witness: with `f` stored at exactly 1,000,000 bytes and `g`
at 1,000,001 bytes, reading `f` succeeds with its full content and
relative path, reading `g` fails with the `TooLarge` error and no content,
and reading the absent `h` fails with the `NotFound` error. -/
theorem read_file_size_cap_witness :
    read_file [(["repo", "f"], ⟨"hello", 1000000⟩), (["repo", "g"], ⟨"big", 1000001⟩)]
        ["repo"] "f" =
      { ok := true, path := some "f", content := some "hello", size := some 5 } ∧
    read_file [(["repo", "f"], ⟨"hello", 1000000⟩), (["repo", "g"], ⟨"big", 1000001⟩)]
        ["repo"] "g" =
      { ok := false, error := some "File too large (>1MB)" } ∧
    read_file [(["repo", "f"], ⟨"hello", 1000000⟩), (["repo", "g"], ⟨"big", 1000001⟩)]
        ["repo"] "h" =
      { ok := false, error := some "File not found" } := by
  have hf := (read_file_size_cap
    [(["repo", "f"], ⟨"hello", 1000000⟩), (["repo", "g"], ⟨"big", 1000001⟩)]
    ["repo"] "f" (by decide)).2.1 ⟨"hello", 1000000⟩ (by decide) (by decide)
  have hg := (read_file_size_cap
    [(["repo", "f"], ⟨"hello", 1000000⟩), (["repo", "g"], ⟨"big", 1000001⟩)]
    ["repo"] "g" (by decide)).2.2 ⟨"big", 1000001⟩ (by decide) (by decide)
  have hh := (read_file_size_cap
    [(["repo", "f"], ⟨"hello", 1000000⟩), (["repo", "g"], ⟨"big", 1000001⟩)]
    ["repo"] "h" (by decide)).1 (by decide)
  exact ⟨hf.trans (by decide), hg, hh⟩

/-- Claim C2: `bash` spawns a subprocess exactly when the
whitespace-stripped command starts with one of the allowed prefixes, and a
rejected command spawns nothing and returns the `ok := false` error result
carrying the allowed prefix list. -/
theorem bash_command_gate (cfg : ToolConfig) (allowed : List String)
    (runSub : String → Int → SubResult) (command : String) (t? : Option Int) :
    ((bash cfg allowed runSub command t?).2.isSome =
      is_command_allowed allowed (pyStrip command)) ∧
    (is_command_allowed allowed (pyStrip command) = false →
      bash cfg allowed runSub command t? =
        ({ ok := false,
           error := some ("Command not allowed: " ++ pyStrip command),
           allowedPrefixes := some allowed }, none)) := by
  unfold bash
  by_cases h : is_command_allowed allowed (pyStrip command) = true
  · rw [if_neg (by simp [h])]
    constructor
    · rw [h]
      cases hrs : runSub (pyStrip command) (effectiveTimeout cfg t?) <;> simp [hrs]
    · intro hfalse
      rw [h] at hfalse
      cases hfalse
  · have h' : is_command_allowed allowed (pyStrip command) = false := by
      simpa using h
    rw [if_pos (by simp [h']), h']
    simp

/-- Claim C2, witness: with the baseline allowed-command list,
`pytest -q` (with surrounding whitespace) is executed, while `rm -rf /` is
rejected with no subprocess and the allow-list echoed back. -/
theorem bash_command_gate_witness :
    (bash defaultToolConfig defaultToolConfig.allowed_commands
      (fun _ _ => SubResult.completed 0 "out" "err") "  pytest -q  " none).2.isSome
      = true ∧
    bash defaultToolConfig defaultToolConfig.allowed_commands
      (fun _ _ => SubResult.completed 0 "out" "err") "rm -rf /" none =
      ({ ok := false, error := some "Command not allowed: rm -rf /",
         allowedPrefixes := some defaultToolConfig.allowed_commands }, none) := by
  have h1 := (bash_command_gate defaultToolConfig defaultToolConfig.allowed_commands
    (fun _ _ => SubResult.completed 0 "out" "err") "  pytest -q  " none).1
  have h2 := (bash_command_gate defaultToolConfig defaultToolConfig.allowed_commands
    (fun _ _ => SubResult.completed 0 "out" "err") "rm -rf /" none).2 (by decide)
  exact ⟨h1.trans (by decide), h2.trans (by decide)⟩

/-- Claim C9, counterexample: a requested timeout of `-3` on an allowed
command is passed to the subprocess unchanged, so the effective timeout is
below 1 and outside the interval `[1, max_timeout]`. -/
theorem bash_timeout_counterexample :
    (bash defaultToolConfig defaultToolConfig.allowed_commands
      (fun _ _ => SubResult.completed 0 "" "") "pytest -q" (some (-3))).2 =
      some ("pytest -q", -3) ∧
    ((-3 : Int) < 1) := by
  decide

/-- Claim C9, amended: the effective timeout handed to the subprocess is
`min(t, max_timeout)` for a nonzero requested value `t` and
`min(default_timeout, max_timeout)` for an absent or zero request; with the
default configuration (default 90, cap 300), every request `t ≥ 1` yields
an effective timeout inside `[1, 300]` and requests above the cap are
clamped down to it, but a negative request is passed through unclamped. -/
theorem bash_timeout_clamping (allowed : List String)
    (runSub : String → Int → SubResult) (command : String) :
    (∀ t : Int, 1 ≤ t →
      effectiveTimeout defaultToolConfig (some t) = min t 300 ∧
      1 ≤ effectiveTimeout defaultToolConfig (some t) ∧
      effectiveTimeout defaultToolConfig (some t) ≤ 300) ∧
    (effectiveTimeout defaultToolConfig none = 90 ∧
      effectiveTimeout defaultToolConfig (some 0) = 90) ∧
    (∀ t : Int, t < 0 → effectiveTimeout defaultToolConfig (some t) = t) ∧
    (∀ t? : Option Int, is_command_allowed allowed (pyStrip command) = true →
      (bash defaultToolConfig allowed runSub command t?).2 =
        some (pyStrip command, effectiveTimeout defaultToolConfig t?)) := by
  refine ⟨?_, ⟨by decide, by decide⟩, ?_, ?_⟩
  · intro t h1
    have hnz : ¬ (t = 0) := by omega
    constructor
    · simp [effectiveTimeout, defaultToolConfig, hnz]
    · constructor
      · simp only [effectiveTimeout, defaultToolConfig, hnz, if_neg hnz]
        omega
      · simp only [effectiveTimeout, defaultToolConfig, hnz, if_neg hnz]
        omega
  · intro t hneg
    have hnz : ¬ (t = 0) := by omega
    simp only [effectiveTimeout, defaultToolConfig, if_neg hnz]
    omega
  · intro t? hgate
    unfold bash
    rw [if_neg (by simp [hgate])]
    cases hrs : runSub (pyStrip command) (effectiveTimeout defaultToolConfig t?) <;>
      simp [hrs]

/-- Claim C9 (amended), witness: a request of 600 seconds on an allowed
command is clamped down to the 300-second cap, which lies in `[1, 300]`,
and the subprocess is invoked with exactly that timeout. -/
theorem bash_timeout_clamping_witness :
    effectiveTimeout defaultToolConfig (some 600) = 300 ∧
    (1 ≤ effectiveTimeout defaultToolConfig (some 600) ∧
      effectiveTimeout defaultToolConfig (some 600) ≤ 300) ∧
    (bash defaultToolConfig defaultToolConfig.allowed_commands
      (fun _ _ => SubResult.completed 0 "" "") "pytest -q" (some 600)).2 =
      some ("pytest -q", 300) := by
  have h := bash_timeout_clamping defaultToolConfig.allowed_commands
    (fun _ _ => SubResult.completed 0 "" "") "pytest -q"
  have h1 := h.1 600 (by decide)
  have h4 := h.2.2.2 (some 600) (by decide)
  exact ⟨h1.1.trans (by decide), ⟨h1.2.1, h1.2.2⟩, h4.trans (by decide)⟩

/-- Claim C7: when the diff subprocess exits non-zero, `git_diff` returns
the failure envelope carrying the stderr; when it exits zero, the reported
additions and deletions count exactly the lines beginning with `+` (resp.
`-`) excluding the `+++` (resp. `---`) header lines; on the example diff
with three added lines and one removed line it reports `additions = 3` and
`deletions = 1`. -/
theorem git_diff_stats_and_failure (proc : Bool → ProcResult) (staged : Bool) :
    ((proc staged).returncode ≠ 0 →
      git_diff proc staged =
        { ok := false, error := some (proc staged).stderr }) ∧
    ((proc staged).returncode = 0 →
      (git_diff proc staged).additions =
        some ((strSplitOn (proc staged).stdout '\n').countP isAdditionLine) ∧
      (git_diff proc staged).deletions =
        some ((strSplitOn (proc staged).stdout '\n').countP isDeletionLine)) ∧
    git_diff (fun _ => ⟨0, exampleDiff, ""⟩) false =
      { ok := true, diff := some exampleDiff,
        additions := some 3, deletions := some 1, staged := some false } := by
  refine ⟨?_, ?_, by decide⟩
  · intro h
    unfold git_diff
    rw [if_pos h]
  · intro h
    unfold git_diff
    rw [if_neg (by simp [h])]
    exact ⟨rfl, rfl⟩

/-- Claim C7, witness: a diff subprocess failing with exit code 1 and
stderr `fatal: not a git repository` yields exactly that failure envelope,
and the zero-exit branch on the example diff counts 3 additions and 1
deletion. -/
theorem git_diff_stats_and_failure_witness :
    git_diff (fun _ => ⟨1, "", "fatal: not a git repository"⟩) false =
      { ok := false, error := some "fatal: not a git repository" } ∧
    (git_diff (fun _ => ⟨0, exampleDiff, ""⟩) false).additions = some 3 ∧
    (git_diff (fun _ => ⟨0, exampleDiff, ""⟩) false).deletions = some 1 := by
  have h1 := (git_diff_stats_and_failure
    (fun _ => ⟨1, "", "fatal: not a git repository"⟩) false).1 (by decide)
  have h2 := (git_diff_stats_and_failure
    (fun _ => ⟨0, exampleDiff, ""⟩) false).2.1 rfl
  exact ⟨h1, h2.1.trans (by decide), h2.2.trans (by decide)⟩

/-- Claim C10: a tool-use request whose name is none of the six known tools
is answered by the dispatcher with the `ok := false` envelope naming the
unknown tool, the filesystem is left unchanged, and (being a total
function) the dispatcher raises nothing. -/
theorem execute_tool_unknown_name (env : ExecEnv) (fs : FS) (name : String)
    (input : ToolInput)
    (h : ¬ (name = "read_file" ∨ name = "write_file" ∨ name = "bash" ∨
            name = "git_diff" ∨ name = "git_apply" ∨ name = "list_files")) :
    execute_tool env fs name input =
      ({ ok := false, error := some ("Unknown tool: " ++ name) }, fs) := by
  push_neg at h
  obtain ⟨h1, h2, h3, h4, h5, h6⟩ := h
  unfold execute_tool
  rw [if_neg h1, if_neg h2, if_neg h3, if_neg h4, if_neg h5, if_neg h6]

/-- Claim C10, witness: dispatching the unknown tool name `frobnicate`
against a concrete environment returns the error envelope naming it and
leaves the one-file filesystem untouched. -/
theorem execute_tool_unknown_name_witness :
    execute_tool
      ⟨["repo"], defaultToolConfig, defaultToolConfig.allowed_commands,
        fun _ _ => SubResult.timedOut, fun _ => ⟨0, "", ""⟩,
        fun _ _ => ⟨0, "", ""⟩, fun _ => Except.ok []⟩
      [(["repo", "f"], ⟨"hello", 5⟩)] "frobnicate" {} =
      ({ ok := false, error := some "Unknown tool: frobnicate" },
       [(["repo", "f"], ⟨"hello", 5⟩)]) := by
  exact execute_tool_unknown_name
    ⟨["repo"], defaultToolConfig, defaultToolConfig.allowed_commands,
      fun _ _ => SubResult.timedOut, fun _ => ⟨0, "", ""⟩,
      fun _ _ => ⟨0, "", ""⟩, fun _ => Except.ok []⟩
    [(["repo", "f"], ⟨"hello", 5⟩)] "frobnicate" {} (by decide)

theorem read_file_envelope (fs : FS) (base : AbsPath) (p : String) :
    (read_file fs base p).ok = false →
      (read_file fs base p).error.isSome = true ∧
      (read_file fs base p).path = none ∧
      (read_file fs base p).content = none ∧
      (read_file fs base p).size = none := by
  unfold read_file
  cases hj : jail_path base p with
  | error e => simp
  | ok t =>
    cases hl : fsLookup fs t with
    | none => simp [hl]
    | some d =>
      by_cases hs : 1000000 < d.size
      · simp [hl, hs]
      · cases hr : relative_to base t with
        | error e => simp [hl, hs, hr]
        | ok rel => simp [hl, hs, hr]

theorem write_file_envelope (fs : FS) (base : AbsPath) (p c : String) :
    (write_file fs base p c).1.ok = false →
      (write_file fs base p c).1.error.isSome = true ∧
      (write_file fs base p c).1.path = none ∧
      (write_file fs base p c).1.size = none ∧
      (write_file fs base p c).1.backup = none := by
  unfold write_file
  cases hj : jail_path base p with
  | error e => simp
  | ok t =>
    cases hl : fsLookup fs t with
    | none =>
      cases hr : relative_to base t with
      | error e => simp [hl, hr]
      | ok rel => simp [hl, hr]
    | some old =>
      cases hr : relative_to base t with
      | error e => simp [hl, hr]
      | ok rel =>
        cases hrb : relative_to base (backupPath t) with
        | error e => simp [hl, hr, hrb]
        | ok relb => simp [hl, hr, hrb]

theorem bash_envelope (cfg : ToolConfig) (allowed : List String)
    (runSub : String → Int → SubResult) (command : String) (t? : Option Int) :
    (bash cfg allowed runSub command t?).1.ok = false →
      (bash cfg allowed runSub command t?).1.error.isSome = true ∨
      (∃ rc, (bash cfg allowed runSub command t?).1.returncode = some rc ∧
        rc ≠ 0) := by
  unfold bash
  by_cases h : is_command_allowed allowed (pyStrip command) = true
  · rw [if_neg (by simp [h])]
    cases hrs : runSub (pyStrip command) (effectiveTimeout cfg t?) with
    | completed rc out err =>
      simp only [hrs]
      intro hok
      right
      refine ⟨rc, rfl, ?_⟩
      intro hrc0
      rw [hrc0] at hok
      simp at hok
    | timedOut =>
      simp only [hrs]
      intro _
      left
      simp
  · rw [if_pos (by simpa using h)]
    intro _
    left
    simp

theorem git_diff_envelope (proc : Bool → ProcResult) (staged : Bool) :
    (git_diff proc staged).ok = false →
      (git_diff proc staged).error.isSome = true ∧
      (git_diff proc staged).diff = none ∧
      (git_diff proc staged).additions = none ∧
      (git_diff proc staged).deletions = none := by
  unfold git_diff
  by_cases h : (proc staged).returncode ≠ 0
  · rw [if_pos h]
    intro _; simp
  · rw [if_neg h]
    intro hok; cases hok

theorem git_apply_envelope (applyProc : String → Bool → ProcResult)
    (patch : String) (staged : Bool) :
    (git_apply applyProc patch staged).ok = false →
      (git_apply applyProc patch staged).error.isSome = true ∧
      (git_apply applyProc patch staged).message = none := by
  unfold git_apply
  by_cases h : (applyProc patch staged).returncode ≠ 0
  · rw [if_pos h]
    intro _; simp
  · rw [if_neg h]
    intro hok; cases hok

theorem list_files_envelope (glob : String → Except String (List FileEntry))
    (pattern : String) (max_files : Nat) :
    (list_files glob pattern max_files).ok = false →
      (list_files glob pattern max_files).error.isSome = true ∧
      (list_files glob pattern max_files).files = none := by
  unfold list_files
  cases hg : glob pattern with
  | error e => intro _; simp
  | ok entries => intro hok; cases hok

/-- Claim C4, counterexample: an allowed `bash` command whose subprocess
completes with exit code 1 yields a result with `ok = false` that carries
no error string at all (only returncode, stdout and stderr), refuting the
invariant that every `ok = false` result carries an error string. -/
theorem error_envelope_counterexample :
    (bash defaultToolConfig ["pytest"]
      (fun _ _ => SubResult.completed 1 "o" "e") "pytest -q" none).1 =
      { ok := false, returncode := some 1, stdout := some "o",
        stderr := some "e" } ∧
    (bash defaultToolConfig ["pytest"]
      (fun _ _ => SubResult.completed 1 "o" "e") "pytest -q" none).1.error =
      none := by
  decide

/-- Claim C4, amended: each of the six tool operations is a total function
of its inputs (it raises nothing), every failure is reported with
`ok = false`, and every `ok = false` result carries an error string and no
success fields — except a `bash` invocation whose subprocess completed
with a non-zero exit code, which instead carries that return code with the
captured stdout and stderr and no error string. -/
theorem tool_error_envelope :
    (∀ fs base p, (read_file fs base p).ok = false →
      (read_file fs base p).error.isSome = true ∧
      (read_file fs base p).path = none ∧
      (read_file fs base p).content = none ∧
      (read_file fs base p).size = none) ∧
    (∀ fs base p c, (write_file fs base p c).1.ok = false →
      (write_file fs base p c).1.error.isSome = true ∧
      (write_file fs base p c).1.path = none ∧
      (write_file fs base p c).1.size = none ∧
      (write_file fs base p c).1.backup = none) ∧
    (∀ cfg allowed runSub command t?,
      (bash cfg allowed runSub command t?).1.ok = false →
      (bash cfg allowed runSub command t?).1.error.isSome = true ∨
      (∃ rc, (bash cfg allowed runSub command t?).1.returncode = some rc ∧
        rc ≠ 0)) ∧
    (∀ proc staged, (git_diff proc staged).ok = false →
      (git_diff proc staged).error.isSome = true ∧
      (git_diff proc staged).diff = none ∧
      (git_diff proc staged).additions = none ∧
      (git_diff proc staged).deletions = none) ∧
    (∀ applyProc patch staged, (git_apply applyProc patch staged).ok = false →
      (git_apply applyProc patch staged).error.isSome = true ∧
      (git_apply applyProc patch staged).message = none) ∧
    (∀ glob pattern max_files, (list_files glob pattern max_files).ok = false →
      (list_files glob pattern max_files).error.isSome = true ∧
      (list_files glob pattern max_files).files = none) :=
  ⟨read_file_envelope, write_file_envelope, bash_envelope,
   git_diff_envelope, git_apply_envelope, list_files_envelope⟩

/-- Claim C4 (amended), witness: a failing `read_file` (absent file) and a
failing `git_diff` (exit code 128) both return `ok = false` with an error
string present and their success fields absent. -/
theorem tool_error_envelope_witness :
    (read_file [] ["repo"] "missing").ok = false ∧
    (read_file [] ["repo"] "missing").error.isSome = true ∧
    (read_file [] ["repo"] "missing").path = none ∧
    (read_file [] ["repo"] "missing").content = none ∧
    (git_diff (fun _ => ⟨128, "", "boom"⟩) false).ok = false ∧
    (git_diff (fun _ => ⟨128, "", "boom"⟩) false).error.isSome = true := by
  have h1 := tool_error_envelope.1 [] ["repo"] "missing" (by decide)
  have h2 := tool_error_envelope.2.2.2.1 (fun _ => ⟨128, "", "boom"⟩) false
    (by decide)
  exact ⟨by decide, h1.1, h1.2.1, h1.2.2.1, by decide, h2.1⟩

theorem implementLoop_calls_le
    (model : List Message → Except String (List ContentBlock))
    (exec : String → ToolInput → ToolResult) (maxIter : Nat) :
    ∀ fuel msgs calls,
      (implementLoop model exec maxIter fuel msgs calls).2 ≤ calls + fuel := by
  intro fuel
  induction fuel with
  | zero => intro msgs calls; simp [implementLoop]
  | succ n ih =>
    intro msgs calls
    unfold implementLoop
    cases hm : model msgs with
    | error e =>
      dsimp only
      by_cases hn : n = 0
      · simp [hn]
      · rw [if_neg hn]
        calc (implementLoop model exec maxIter n msgs (calls + 1)).2
            ≤ (calls + 1) + n := ih msgs (calls + 1)
          _ = calls + (n + 1) := by omega
    | ok content =>
      dsimp only
      by_cases ht : hasToolUse content = true
      · rw [if_pos ht]
        calc (implementLoop model exec maxIter n
                (nextMessages exec msgs content) (calls + 1)).2
            ≤ (calls + 1) + n := ih _ (calls + 1)
          _ = calls + (n + 1) := by omega
      · rw [if_neg ht]
        simp

theorem implementLoop_all_tool_use
    (model : List Message → Except String (List ContentBlock))
    (exec : String → ToolInput → ToolResult) (maxIter : Nat)
    (h : ∀ msgs, ∃ content, model msgs = Except.ok content ∧
      hasToolUse content = true) :
    ∀ fuel msgs calls,
      implementLoop model exec maxIter fuel msgs calls =
        (capResult maxIter, calls + fuel) := by
  intro fuel
  induction fuel with
  | zero => intro msgs calls; simp [implementLoop]
  | succ n ih =>
    intro msgs calls
    obtain ⟨content, hm, ht⟩ := h msgs
    unfold implementLoop
    rw [hm]
    simp only [ht, if_pos rfl]
    rw [ih _ (calls + 1)]
    have hc : calls + 1 + n = calls + (n + 1) := by omega
    rw [hc]
    simp

/-- Claim C3: the implement loop makes at most `maxIter` model calls no
matter how the model behaves, the configured default cap is 50, and for a
model that requests a tool call on every response the loop terminates in
the failed state with the cap-reached error after exactly `maxIter`
iterations and model calls. -/
theorem implement_iteration_cap
    (model : List Message → Except String (List ContentBlock))
    (exec : String → ToolInput → ToolResult) (maxIter : Nat)
    (msgs₀ : List Message) :
    (implement_spec model exec maxIter msgs₀).2 ≤ maxIter ∧
    defaultMaxIterations = 50 ∧
    ((∀ msgs, ∃ content, model msgs = Except.ok content ∧
        hasToolUse content = true) →
      implement_spec model exec maxIter msgs₀ = (capResult maxIter, maxIter)) := by
  refine ⟨?_, rfl, ?_⟩
  · have h := implementLoop_calls_le model exec maxIter maxIter msgs₀ 0
    simpa [implement_spec] using h
  · intro h
    have hl := implementLoop_all_tool_use model exec maxIter h maxIter msgs₀ 0
    simpa [implement_spec] using hl

/-- Claim C3, witness: a scripted model that requests a tool call on every
response drives a 3-iteration loop to the cap failure with exactly 3 model
calls, never more. -/
theorem implement_iteration_cap_witness :
    (implement_spec (fun _ => Except.ok [ContentBlock.toolUse "t1" "bash" {}])
      (fun _ _ => { ok := true }) 3 []).2 ≤ 3 ∧
    implement_spec (fun _ => Except.ok [ContentBlock.toolUse "t1" "bash" {}])
      (fun _ _ => { ok := true }) 3 [] = (capResult 3, 3) := by
  have h := implement_iteration_cap
    (fun _ => Except.ok [ContentBlock.toolUse "t1" "bash" {}])
    (fun _ _ => { ok := true }) 3 []
  exact ⟨h.1, h.2.2 (fun msgs => ⟨[ContentBlock.toolUse "t1" "bash" {}], rfl, rfl⟩)⟩

theorem implementLoop_done_step
    (model : List Message → Except String (List ContentBlock))
    (exec : String → ToolInput → ToolResult) (maxIter fuel : Nat)
    (msgs : List Message) (calls : Nat) (content : List ContentBlock)
    (h1 : model msgs = Except.ok content) (h2 : hasToolUse content = false) :
    implementLoop model exec maxIter (fuel + 1) msgs calls =
      ({ ok := true, iterations := maxIter - fuel,
         response := some (joinWith "\n" (textParts content)) }, calls + 1) := by
  unfold implementLoop
  rw [h1]
  simp [h2]

/-- Claim C8: a model response without tool-use requests sends the loop to
the success-terminal state, returning the newline-joined plain-text content
of that response as the summary; in particular a scripted model that
tool-calls once and then answers in plain text makes the loop return
success with that text after exactly 2 iterations and 2 model calls. -/
theorem implement_done_on_plain_response
    (model : List Message → Except String (List ContentBlock))
    (exec : String → ToolInput → ToolResult) (maxIter : Nat)
    (msgs₀ : List Message) :
    (∀ fuel msgs calls content, model msgs = Except.ok content →
      hasToolUse content = false →
      implementLoop model exec maxIter (fuel + 1) msgs calls =
        ({ ok := true, iterations := maxIter - fuel,
           response := some (joinWith "\n" (textParts content)) }, calls + 1)) ∧
    (∀ c₁ c₂, 2 ≤ maxIter → model msgs₀ = Except.ok c₁ →
      hasToolUse c₁ = true →
      model (nextMessages exec msgs₀ c₁) = Except.ok c₂ →
      hasToolUse c₂ = false →
      implement_spec model exec maxIter msgs₀ =
        ({ ok := true, iterations := 2,
           response := some (joinWith "\n" (textParts c₂)) }, 2)) := by
  constructor
  · intro fuel msgs calls content h1 h2
    exact implementLoop_done_step model exec maxIter fuel msgs calls content h1 h2
  · intro c₁ c₂ hge h1 ht1 h2 ht2
    obtain ⟨k, hk⟩ : ∃ k, maxIter = k + 2 :=
      ⟨maxIter - 2, by omega⟩
    subst hk
    unfold implement_spec
    show implementLoop model exec (k + 2) ((k + 1) + 1) msgs₀ 0 = _
    unfold implementLoop
    rw [h1]
    simp only [ht1, if_pos rfl]
    have hd := implementLoop_done_step model exec (k + 2) k
      (nextMessages exec msgs₀ c₁) 1 c₂ h2 ht2
    rw [hd]
    have h2k : k + 2 - k = 2 := by omega
    rw [h2k]
    simp

/-- Claim C8, witness: a scripted model that issues one tool call and then
replies with the plain text `all done` makes the driver succeed after
exactly 2 model calls with `all done` as the summary. -/
theorem implement_done_on_plain_response_witness :
    implement_spec
      (fun msgs =>
        if msgs.length = 0 then Except.ok [ContentBlock.toolUse "t1" "bash" {}]
        else Except.ok [ContentBlock.text "all done"])
      (fun _ _ => { ok := true }) 50 [] =
      ({ ok := true, iterations := 2, response := some "all done" }, 2) := by
  have h := (implement_done_on_plain_response
    (fun msgs =>
      if msgs.length = 0 then Except.ok [ContentBlock.toolUse "t1" "bash" {}]
      else Except.ok [ContentBlock.text "all done"])
    (fun _ _ => { ok := true }) 50 []).2
    [ContentBlock.toolUse "t1" "bash" {}] [ContentBlock.text "all done"]
    (by omega) rfl rfl (by rfl) rfl
  exact h.trans (by decide)

end AIDev
